import Mathlib

/-!
Verification of the core algorithms of the vk_utils library: memory-type
selection, host-visible buffer upload and readback, reflection-driven
descriptor-set merging and layout construction, and the command-submission
lifecycle. Every definition is a shallow embedding of the corresponding Rust
item, translated line by line from the source files named in its doc comment.
Machine integers are modelled as Nat; a Rust panic is modelled as none.
-/

namespace VkUtils

/-- Search loop of memory_type_index, src/memory.rs lines 8 to 15. The Rust
condition for index i is: filter & (1 << i) > 1, together with
(memory_types[i].property_flags & property_flags) == property_flags. Each
entry of the list is the property-flag word of one memory type. -/
def memoryTypeIndexFrom (filter : Nat) (flags : Nat) : List Nat → Nat → Option Nat
  | [], _ => none
  | t :: rest, i =>
    if 1 < filter &&& (1 <<< i) ∧ t &&& flags = flags then some i
    else memoryTypeIndexFrom filter flags rest (i + 1)

/-- memory_type_index from src/memory.rs: scan the memory types from index 0
and return the first index accepted by the loop condition. -/
def memory_type_index (filter : Nat) (memory_types : List Nat) (flags : Nat) : Option Nat :=
  memoryTypeIndexFrom filter flags memory_types 0

/-- The selection rule as the spec states it, for comparison: the first index
i such that bit i is set in the filter and the flags of memory type i contain
the required flags. -/
def memoryTypeIndexSpec (filter : Nat) (flags : Nat) : List Nat → Nat → Option Nat
  | [], _ => none
  | t :: rest, i =>
    if 0 < filter &&& (1 <<< i) ∧ t &&& flags = flags then some i
    else memoryTypeIndexSpec filter flags rest (i + 1)

/-- find_memory_type as specified: scan from index 0. -/
def find_memory_type_spec (filter : Nat) (memory_types : List Nat) (flags : Nat) : Option Nat :=
  memoryTypeIndexSpec filter flags memory_types 0

/-- A host-visible BufferResource, src/buffer_resource.rs lines 12 to 18.
content_size is the caller-requested byte size; bytes is the backing store of
the driver allocation, whose length plays the role of the size field. -/
structure BufferModel where
  content_size : Nat
  bytes : List Nat
deriving DecidableEq

/-- Byte-for-byte copy of src into dst starting at byte offset off. This is
the effect of std::ptr::copy_nonoverlapping through the mapped pointer. -/
def writeBytes (dst : List Nat) (off : Nat) (src : List Nat) : List Nat :=
  dst.take off ++ src ++ dst.drop (off + src.length)

/-- upload, src/buffer_resource.rs lines 34 to 56: map the whole range, copy
every element of data byte for byte starting at offset 0, flush, unmap. A
value of the Rust element type T is modelled as its list of bytes. -/
def upload (b : BufferModel) (data : List (List Nat)) : BufferModel :=
  { b with bytes := writeBytes b.bytes 0 data.flatten }

/-- copy_data, src/buffer_resource.rs lines 119 to 137: map the whole range,
read content_size / size_of T elements from the start of the mapping into an
owned vector, unmap. Argument s is size_of T; element i of the result is the
byte slice of length s at offset i * s. -/
def copy_data (b : BufferModel) (s : Nat) : List (List Nat) :=
  (List.range (b.content_size / s)).map fun i => (b.bytes.drop (i * s)).take s

/-- One iteration of the loop in copy_aligned_to, src/buffer_resource.rs
lines 90 to 115. At offset i the code maps the sub-range, then copies
element_size elements of T, namely the slice data[data_index .. data_index +
element_size], to the mapped pointer; the slice index is a Rust panic when it
passes the end of data, modelled as none. steps counts remaining loop
iterations; i advances by stride and data_index by element_size. -/
def copyAlignedGo (data : List (List Nat)) (es stride : Nat) :
    Nat → Nat → Nat → List Nat → Option (List Nat)
  | 0, _, _, bytes => some bytes
  | steps + 1, i, di, bytes =>
    if di + es ≤ data.length then
      copyAlignedGo data es stride steps (i + stride) (di + es)
        (writeBytes bytes i ((data.drop di).take es).flatten)
    else none

/-- copy_aligned_to, src/buffer_resource.rs lines 82 to 117: element_size
defaults to size_of T; the loop visits offsets 0, stride, 2 * stride and so
on while below content_size. A zero stride is a Rust panic of step_by. -/
def copy_aligned_to (b : BufferModel) (data : List (List Nat))
    (element_size : Option Nat) (sizeofT stride : Nat) : Option BufferModel :=
  if stride = 0 then none
  else
    let es := element_size.getD sizeofT
    match copyAlignedGo data es stride ((b.content_size + stride - 1) / stride) 0 0 b.bytes with
    | some bytes => some { b with bytes := bytes }
    | none => none

/-- The driver calls issued on the mapped-memory paths of
src/buffer_resource.rs: map_memory, flush_mapped_memory_ranges, unmap_memory. -/
inductive MemOp where
  | map
  | flush
  | unmap
deriving DecidableEq

/-- Call sequence of copy_data, lines 119 to 137: map_memory, element reads,
unmap_memory. No flush call occurs on this path. -/
def copy_data_ops : List MemOp := [MemOp.map, MemOp.unmap]

/-- Call sequence of flush_all, lines 21 to 32: flush_mapped_memory_ranges,
then unmap_memory. -/
def flush_all_ops : List MemOp := [MemOp.flush, MemOp.unmap]

/-- Call sequence of read, lines 139 to 149: map_memory only; the mapping is
left live for the returned view. -/
def read_ops : List MemOp := [MemOp.map]

/-- Call sequence of for_each, lines 151 to 160: read, then flush_all, then
one further unmap_memory of the same memory. -/
def for_each_ops : List MemOp := read_ops ++ flush_all_ops ++ [MemOp.unmap]

/-- One entry of ash DescriptorSetLayoutBinding as built in
src/pipeline_descriptor.rs lines 89 to 150: binding index, descriptor type
(the numeric DescriptorType code), descriptor count (0 is the unbounded
sentinel), and the stage-flag word. -/
structure LayoutBinding where
  binding : Nat
  descriptorType : Nat
  descriptorCount : Nat
  stageFlags : Nat
deriving DecidableEq

/-- Lookup of a set index in a binding map, modelled as an association list
with pairwise distinct keys, matching HashMap get semantics. -/
def findSet {α : Type} : List (Nat × α) → Nat → Option α
  | [], _ => none
  | (k, v) :: rest, key => if k = key then some v else findSet rest key

/-- The entry update of the merge loop, src/pipeline_descriptor.rs lines 188
to 201: a vacant set index inserts the binding list verbatim; an occupied set
index extends the existing binding list at the end. -/
def insertOrExtend : List (Nat × List LayoutBinding) → Nat → List LayoutBinding →
    List (Nat × List LayoutBinding)
  | [], k, v => [(k, v)]
  | (k', v') :: rest, k, v =>
    if k' = k then (k', v' ++ v) :: rest
    else (k', v') :: insertOrExtend rest k v

/-- The merge loop over the explicit bindings, src/pipeline_descriptor.rs
lines 188 to 201, starting from the reflected map. -/
def mergeBindings (reflected explicit : List (Nat × List LayoutBinding)) :
    List (Nat × List LayoutBinding) :=
  explicit.foldl (fun acc p => insertOrExtend acc p.1 p.2) reflected

/-- The merge rule as the spec states it, per set index: only reflected keeps
the reflected list, only explicit inserts the explicit list verbatim, both
appends the explicit bindings after the reflected ones. -/
def mergeSpec : Option (List LayoutBinding) → Option (List LayoutBinding) →
    Option (List LayoutBinding)
  | r, none => r
  | none, some bs => some bs
  | some rs, some bs => some (rs ++ bs)

/-- One iteration of the layout loop, src/pipeline_descriptor.rs lines 221 to
231: the layout created for a set is stored at the cell whose index is the
set index; an index at or past the vector length is a Rust panic, modelled as
none. The layout object is identified with the binding list it was created
from; an untouched cell keeps the default placeholder, modelled as none in
the cell. -/
def buildLayoutsStep (acc : Option (List (Option (List LayoutBinding))))
    (p : Nat × List LayoutBinding) : Option (List (Option (List LayoutBinding))) :=
  match acc with
  | none => none
  | some arr => if p.1 < arr.length then some (arr.set p.1 (some p.2)) else none

/-- Layout-array construction, src/pipeline_descriptor.rs lines 219 to 231:
a vector of default layouts whose length is the number of map entries, then
one store per map entry at the set index. -/
def buildLayouts (sets : List (Nat × List LayoutBinding)) :
    Option (List (Option (List LayoutBinding))) :=
  sets.foldl buildLayoutsStep (some (List.replicate sets.length none))

/-- Descriptor-pool sizes, src/pipeline_descriptor.rs lines 233 to 238: for
every set, for every binding, push one pool-size entry carrying the binding
descriptor type and descriptor count. -/
def poolSizes (sets : List (Nat × List LayoutBinding)) : List (Nat × Nat) :=
  sets.foldl
    (fun acc p => p.2.foldl (fun acc2 b => acc2 ++ [(b.descriptorType, b.descriptorCount)]) acc)
    []

/-- Spec-side total of the pool-size entries of one descriptor type. -/
def sumByType (ps : List (Nat × Nat)) (ty : Nat) : Nat :=
  ((ps.filter fun q => q.1 == ty).map Prod.snd).sum

/-- Spec-side total descriptor count of all bindings of one descriptor type
across all sets. -/
def totalCountByType (sets : List (Nat × List LayoutBinding)) (ty : Nat) : Nat :=
  (sets.map fun p =>
    ((p.2.filter fun b => b.descriptorType == ty).map LayoutBinding.descriptorCount).sum).sum

/-- The part of ShaderCompiler::compile_string visible to pipeline
construction, src/shader_compiler.rs lines 65 to 104: whether compilation
failed, the diagnostic text, and the reflected binding map already grouped by
set index as produced by create_descriptor_set_bindings. -/
structure CompileResult where
  failed : Bool
  error_string : String
  reflected : List (Nat × List LayoutBinding)
deriving DecidableEq

/-- The device objects held by a constructed ComputePipeline,
src/pipeline_descriptor.rs lines 21 to 26 and 296 to 301: the layout array,
the pool-size list the pool was created from, and the max_sets value of the
pool. -/
structure PipelineModel where
  layouts : List (Option (List LayoutBinding))
  pool_sizes : List (Nat × Nat)
  max_sets : Nat
deriving DecidableEq

/-- The observable outcome of ComputePipeline::new_from_source_string: the
returned optional pipeline, the lines written to standard output, and how
many descriptor-set layouts, descriptor pools and pipeline objects were
created on the device. -/
structure BuildOutcome where
  pipeline : Option PipelineModel
  printed : List String
  createdLayouts : Nat
  createdPools : Nat
  createdPipelines : Nat
deriving DecidableEq

/-- ComputePipeline::new_from_source_string, src/pipeline_descriptor.rs lines
177 to 308: on compile failure print the diagnostic and return None without
creating any device object; otherwise merge the explicit bindings into the
reflected map, build the layout array (a Rust panic there is the outer none),
create the pool sized by poolSizes with max_sets equal to
max_frames_in_flight times the number of map entries, and return the
pipeline. -/
def new_from_source_string (c : CompileResult) (max_frames_in_flight : Nat)
    (explicit_bindings : Option (List (Nat × List LayoutBinding))) : Option BuildOutcome :=
  if c.failed then some ⟨none, [c.error_string], 0, 0, 0⟩
  else
    let merged :=
      match explicit_bindings with
      | some e => mergeBindings c.reflected e
      | none => c.reflected
    match buildLayouts merged with
    | none => none
    | some arr =>
      some ⟨some ⟨arr, poolSizes merged, max_frames_in_flight * merged.length⟩,
            [], merged.length, 1, 1⟩

/-- Lifecycle stages of one command buffer, src/command_buffer.rs and
src/wait_handle.rs: allocated (idle), recording after begin, submitted after
submit consumed the buffer into a WaitHandle, waitingDrop while the Drop
implementation of WaitHandle blocks in wait, freed after
free_command_buffers returned the storage to the pool. -/
inductive CBStatus where
  | idle
  | recording
  | submitted
  | waitingDrop
  | freed
deriving DecidableEq

/-- Global state of the submission protocol: per command-buffer id its
lifecycle stage (none when never allocated), the number of queue_submit
calls issued for it, and whether its fence has been signaled by the device. -/
structure SubmissionState where
  status : Nat → Option CBStatus
  enqueues : Nat → Nat
  signaled : Nat → Bool

/-- The initial state: nothing allocated, no submissions, no signals. -/
def initialState : SubmissionState :=
  ⟨fun _ => none, fun _ => 0, fun _ => false⟩

/-- Update the lifecycle stage of one command buffer. -/
def setStatus (s : SubmissionState) (id : Nat) (st : CBStatus) : SubmissionState :=
  { s with status := fun j => if j = id then some st else s.status j }

/-- Count one queue_submit call for one command buffer. -/
def bumpEnqueue (s : SubmissionState) (id : Nat) : SubmissionState :=
  { s with enqueues := fun j => if j = id then s.enqueues j + 1 else s.enqueues j }

/-- Mark the fence of one command buffer as signaled by the device. -/
def setSignaled (s : SubmissionState) (id : Nat) : SubmissionState :=
  { s with signaled := fun j => if j = id then true else s.signaled j }

/-- The transitions the public API permits. Each constructor is one operation
of src/command_buffer.rs or src/wait_handle.rs, available only in the stages
in which the caller can still own the needed value: submit takes the
CommandBuffer by value and moves it into the returned WaitHandle (lines 77 to
98 of command_buffer.rs), so no operation requiring the buffer exists past
submission; the WaitHandle exposes only waiting and dropping. The Drop
implementation (wait_handle.rs lines 56 to 66) first blocks in wait, which
returns only once the fence is signaled, and only then calls
free_command_buffers; signal is the device completing the submitted work. -/
inductive Step : SubmissionState → SubmissionState → Prop where
  | alloc (s : SubmissionState) (id : Nat) :
      s.status id = none → Step s (setStatus s id CBStatus.idle)
  | beginRecord (s : SubmissionState) (id : Nat) :
      s.status id = some CBStatus.idle → Step s (setStatus s id CBStatus.recording)
  | record (s : SubmissionState) (id : Nat) :
      s.status id = some CBStatus.recording → Step s s
  | submit (s : SubmissionState) (id : Nat) :
      s.status id = some CBStatus.recording →
      Step s (bumpEnqueue (setStatus s id CBStatus.submitted) id)
  | signal (s : SubmissionState) (id : Nat) :
      s.status id = some CBStatus.submitted → Step s (setSignaled s id)
  | dropWait (s : SubmissionState) (id : Nat) :
      s.status id = some CBStatus.submitted → s.signaled id = true →
      Step s (setStatus s id CBStatus.waitingDrop)
  | dropFree (s : SubmissionState) (id : Nat) :
      s.status id = some CBStatus.waitingDrop → Step s (setStatus s id CBStatus.freed)

/-- States reachable from the initial state through API transitions. -/
inductive Reachable : SubmissionState → Prop where
  | init : Reachable initialState
  | step {s s' : SubmissionState} : Reachable s → Step s s' → Reachable s'

/-- Claim C1: find_memory_type was specified to return the smallest index i
with bit i set in the filter and the type flags a superset of the required
flags. The code compares the masked filter with 1 instead of 0, so bit 0 can
never match: with filter 1 and one memory type whose flags 7 contain the
required flags 7, the code returns none where the specified rule returns
index 0. -/
theorem memory_type_index_bit_zero_bug :
    memory_type_index 1 [7] 7 = none ∧ find_memory_type_spec 1 [7] 7 = some 0 := by
  decide

/-- Claim C10: the canonical order is flush, then unmap, then return, and
for_each releases its single mapping exactly once. The code diverges:
copy_data issues no flush at all before its unmap, and for_each issues one
map but two unmaps. -/
theorem read_path_flush_unmap_divergence :
    copy_data_ops.count MemOp.flush = 0
    ∧ copy_data_ops = [MemOp.map, MemOp.unmap]
    ∧ for_each_ops.count MemOp.map = 1
    ∧ for_each_ops.count MemOp.unmap = 2 := by
  decide

theorem flatten_chunk (s : Nat) (data : List (List Nat)) (rest : List Nat) :
    ∀ (i : Nat) (hi : i < data.length), (∀ x ∈ data, x.length = s) →
      ((data.flatten ++ rest).drop (i * s)).take s = data.get ⟨i, hi⟩ := by
  induction data with
  | nil => intro i hi _; exact absurd hi (by simp)
  | cons x tl ih =>
    intro i hi hlen
    have hx : x.length = s := hlen x (List.mem_cons_self x tl)
    cases i with
    | zero =>
      simp only [List.flatten_cons, List.drop_zero, Nat.zero_mul, List.append_assoc]
      rw [← hx, List.take_left]
      rfl
    | succ i =>
      have h1 : (i + 1) * s = x.length + i * s := by rw [hx]; ring
      have h2 : i < tl.length := by
        have := hi
        simp only [List.length_cons] at this
        omega
      simp only [List.flatten_cons, List.append_assoc, h1, List.drop_append]
      exact ih i h2 fun y hy => hlen y (List.mem_cons_of_mem x hy)

/-- Claim C2: uploading N elements of byte size s into a buffer whose content
size is N times s and then reading back with copy_data returns exactly the
uploaded elements in order, N equal to 0 included. -/
theorem upload_copy_data_roundtrip (b : BufferModel) (data : List (List Nat)) (s : Nat)
    (hs : 0 < s) (hlen : ∀ x ∈ data, x.length = s)
    (hcs : b.content_size = data.length * s)
    (hroom : data.length * s ≤ b.bytes.length) :
    copy_data (upload b data) s = data := by
  have hcount : (upload b data).content_size / s = data.length := by
    simp [upload, hcs, Nat.mul_div_cancel _ hs]
  apply List.ext_get
  · simp [copy_data, hcount]
  · intro i h1 h2
    simp only [copy_data, hcount, List.get_map, List.get_range] at h1 ⊢
    have hb : (upload b data).bytes = data.flatten ++ b.bytes.drop data.flatten.length := by
      simp [upload, writeBytes]
    rw [hb]
    have hi : i < data.length := by simpa using h2
    exact flatten_chunk s data _ i hi hlen

/-- Witness for upload_copy_data_roundtrip: a buffer of content size 4 with
five backing bytes, two elements of two bytes each. -/
theorem upload_copy_data_roundtrip_witness :
    (0 < 2 ∧ (4 : Nat) = 2 * 2 ∧ 2 * 2 ≤ 5)
    ∧ copy_data (upload ⟨4, [9, 9, 9, 9, 9]⟩ [[1, 2], [3, 4]]) 2 = [[1, 2], [3, 4]] :=
  ⟨⟨by decide, by decide, by decide⟩,
    upload_copy_data_roundtrip ⟨4, [9, 9, 9, 9, 9]⟩ [[1, 2], [3, 4]] 2 (by decide)
      (by decide) (by decide) (by decide)⟩

theorem writeBytes_nil (dst : List Nat) (off : Nat) : writeBytes dst off [] = dst := by
  simp [writeBytes]

theorem writeBytes_length (dst : List Nat) (off : Nat) (src : List Nat)
    (h : off + src.length ≤ dst.length) : (writeBytes dst off src).length = dst.length := by
  simp only [writeBytes, List.length_append, List.length_take, List.length_drop]
  omega

theorem writeBytes_writeBytes (dst : List Nat) (off : Nat) (c₁ c₂ : List Nat)
    (h : off ≤ dst.length) :
    writeBytes (writeBytes dst off c₁) (off + c₁.length) c₂ = writeBytes dst off (c₁ ++ c₂) := by
  unfold writeBytes
  have hlen : (dst.take off ++ c₁).length = off + c₁.length := by
    simp only [List.length_append, List.length_take]
    omega
  have h1 : (dst.take off ++ c₁ ++ dst.drop (off + c₁.length)).take (off + c₁.length)
      = dst.take off ++ c₁ := List.take_left' hlen
  have h2 : (dst.take off ++ c₁ ++ dst.drop (off + c₁.length)).drop
        (off + c₁.length + c₂.length)
      = dst.drop (off + (c₁ ++ c₂).length) := by
    have e1 : off + c₁.length + c₂.length = (dst.take off ++ c₁).length + c₂.length := by
      omega
    rw [e1, List.drop_append, List.drop_drop]
    have e2 : off + c₁.length + c₂.length = off + (c₁ ++ c₂).length := by
      simp only [List.length_append]
      omega
    rw [e2]
  rw [h1, h2]
  simp [List.append_assoc]

theorem flatten_length_uniform (s : Nat) (l : List (List Nat))
    (h : ∀ x ∈ l, x.length = s) : l.flatten.length = l.length * s := by
  induction l with
  | nil => simp
  | cons x tl ih =>
    simp only [List.flatten_cons, List.length_append, List.length_cons]
    rw [h x (List.mem_cons_self x tl), ih fun y hy => h y (List.mem_cons_of_mem x hy)]
    ring

theorem copyAlignedGo_dense (data : List (List Nat)) (es : Nat)
    (hlen : ∀ x ∈ data, x.length = 1) :
    ∀ (steps di : Nat) (bytes : List Nat),
      di + steps * es ≤ data.length → di + steps * es ≤ bytes.length →
      copyAlignedGo data es es steps di di bytes
        = some (writeBytes bytes di ((data.drop di).take (steps * es)).flatten) := by
  intro steps
  induction steps with
  | zero =>
    intro di bytes _ _
    simp [copyAlignedGo, writeBytes_nil]
  | succ steps ih =>
    intro di bytes hdata hroom
    have hmul : (steps + 1) * es = steps * es + es := Nat.succ_mul steps es
    have hstep : di + es ≤ data.length := by omega
    have htake : ∀ x ∈ (data.drop di).take es, x.length = 1 := fun x hx =>
      hlen x ((data.drop_sublist di).subset (((data.drop di).take_sublist es).subset hx))
    have hc1 : (((data.drop di).take es).flatten).length = es := by
      rw [flatten_length_uniform 1 _ htake]
      simp only [List.length_take, List.length_drop]
      omega
    rw [copyAlignedGo, if_pos hstep]
    rw [ih (di + es) (writeBytes bytes di ((data.drop di).take es).flatten)
      (by omega)
      (by rw [writeBytes_length bytes di _ (by omega)]; omega)]
    have hww := writeBytes_writeBytes bytes di ((data.drop di).take es).flatten
      (((data.drop (di + es)).take (steps * es)).flatten) (by omega)
    rw [hc1] at hww
    rw [hww]
    have hchunks : ((data.drop di).take es).flatten
          ++ ((data.drop (di + es)).take (steps * es)).flatten
        = ((data.drop di).take ((steps + 1) * es)).flatten := by
      rw [← List.flatten_append]
      have e1 : (steps + 1) * es = es + steps * es := by omega
      rw [e1, List.take_add]
      have e2 : (data.drop di).drop es = data.drop (di + es) := by
        rw [List.drop_drop]
      rw [e2]
    rw [hchunks]

/-- Claim C3 counterexample: one element of two bytes, densely packed since
content size is 2, with stride equal to element size 2. A plain upload writes
the two element bytes, but copy_aligned_to consumes element_size elements of
T rather than element_size bytes, indexes past the end of the input slice,
and is a Rust panic, so it does not write the bytes upload writes. -/
theorem copy_aligned_to_dense_counterexample :
    copy_aligned_to ⟨2, [0, 0]⟩ [[1, 2]] (some 2) 2 2 = none
    ∧ upload ⟨2, [0, 0]⟩ [[1, 2]] = ⟨2, [1, 2]⟩ := by
  decide

/-- Claim C3 amended: when the element type is one byte wide, the stride
equals element_size, element_size divides the content size, and the data is
densely packed, namely one byte element per content byte, copy_aligned_to
writes exactly the bytes a single upload of the same slice writes. For wider
element types the loop mixes element counts with byte offsets and the two
operations disagree. -/
theorem copy_aligned_to_unit_stride_matches_upload (b : BufferModel) (data : List (List Nat))
    (es : Nat) (hes : 0 < es) (hdvd : es ∣ b.content_size)
    (hlen : ∀ x ∈ data, x.length = 1)
    (hdata : data.length = b.content_size)
    (hroom : b.content_size ≤ b.bytes.length) :
    copy_aligned_to b data (some es) 1 es = some (upload b data) := by
  obtain ⟨q, hq⟩ := hdvd
  have hq' : q * es = b.content_size := by rw [hq]; ring
  have hsteps : (b.content_size + es - 1) / es = q := by
    have e1 : b.content_size + es - 1 = es * q + (es - 1) := by omega
    rw [e1, Nat.mul_add_div hes, Nat.div_eq_of_lt (by omega)]
    omega
  unfold copy_aligned_to
  rw [if_neg (by omega : ¬ es = 0)]
  simp only [Option.getD_some]
  rw [hsteps, copyAlignedGo_dense data es hlen q 0 b.bytes (by omega) (by omega)]
  have htot : (data.drop 0).take (q * es) = data := by
    rw [List.drop_zero, hq', ← hdata, List.take_length]
  rw [htot]
  rfl

/-- Witness for copy_aligned_to_unit_stride_matches_upload: four one-byte
elements, element size 2, content size 4. -/
theorem copy_aligned_to_unit_stride_matches_upload_witness :
    (0 < 2 ∧ (2 : Nat) ∣ 4 ∧ (4 : Nat) ≤ 4)
    ∧ copy_aligned_to ⟨4, [7, 7, 7, 7]⟩ [[1], [2], [3], [4]] (some 2) 1 2
        = some (upload ⟨4, [7, 7, 7, 7]⟩ [[1], [2], [3], [4]]) :=
  ⟨⟨by decide, by decide, by decide⟩,
    copy_aligned_to_unit_stride_matches_upload ⟨4, [7, 7, 7, 7]⟩ [[1], [2], [3], [4]] 2
      (by decide) (by decide) (by decide) (by decide) (by decide)⟩

theorem mergeSpec_none_right (r : Option (List LayoutBinding)) : mergeSpec r none = r := by
  cases r <;> rfl

theorem mergeSpec_some_right (r : Option (List LayoutBinding)) (v : List LayoutBinding) :
    mergeSpec r (some v) = some (r.getD [] ++ v) := by
  cases r <;> simp [mergeSpec]

theorem findSet_insertOrExtend_self (acc : List (Nat × List LayoutBinding)) (k : Nat)
    (v : List LayoutBinding) :
    findSet (insertOrExtend acc k v) k = some ((findSet acc k).getD [] ++ v) := by
  induction acc with
  | nil => simp [insertOrExtend, findSet]
  | cons p rest ih =>
    obtain ⟨k', v'⟩ := p
    by_cases hk : k' = k
    · subst hk
      simp [insertOrExtend, findSet]
    · simp [insertOrExtend, findSet, hk, ih]

theorem findSet_insertOrExtend_ne (acc : List (Nat × List LayoutBinding)) (k key : Nat)
    (v : List LayoutBinding) (hne : key ≠ k) :
    findSet (insertOrExtend acc k v) key = findSet acc key := by
  induction acc with
  | nil => simp [insertOrExtend, findSet, Ne.symm hne]
  | cons p rest ih =>
    obtain ⟨k', v'⟩ := p
    by_cases hk : k' = k
    · subst hk
      simp [insertOrExtend, findSet, Ne.symm hne]
    · simp only [insertOrExtend, if_neg hk, findSet]
      split
      · rfl
      · exact ih

theorem findSet_eq_none_of_not_mem (l : List (Nat × List LayoutBinding)) (k : Nat)
    (h : k ∉ l.map Prod.fst) : findSet l k = none := by
  induction l with
  | nil => rfl
  | cons p rest ih =>
    simp only [List.map_cons, List.mem_cons] at h
    push_neg at h
    have : ¬ p.1 = k := fun hh => h.1 hh.symm
    obtain ⟨k', v'⟩ := p
    simp only [findSet, if_neg this]
    exact ih h.2

theorem mergeBindings_lookup (explicit : List (Nat × List LayoutBinding)) :
    ∀ (acc : List (Nat × List LayoutBinding)) (k : Nat),
      (explicit.map Prod.fst).Nodup →
      findSet (explicit.foldl (fun a p => insertOrExtend a p.1 p.2) acc) k
        = mergeSpec (findSet acc k) (findSet explicit k) := by
  induction explicit with
  | nil =>
    intro acc k _
    simp [findSet, mergeSpec_none_right]
  | cons p tl ih =>
    intro acc k hnd
    obtain ⟨k₀, v₀⟩ := p
    simp only [List.map_cons, List.nodup_cons] at hnd
    obtain ⟨hnotin, hnd'⟩ := hnd
    simp only [List.foldl_cons]
    rw [ih (insertOrExtend acc k₀ v₀) k hnd']
    by_cases hk : k₀ = k
    · subst hk
      rw [findSet_eq_none_of_not_mem tl k₀ hnotin, mergeSpec_none_right,
        findSet_insertOrExtend_self,
        show findSet ((k₀, v₀) :: tl) k₀ = some v₀ from by simp [findSet],
        mergeSpec_some_right]
    · rw [findSet_insertOrExtend_ne acc k₀ k v₀ fun h => hk h.symm,
        show findSet ((k₀, v₀) :: tl) k = findSet tl k from by simp [findSet, hk]]

/-- Claim C4: after the merge loop, a set index present only in the explicit
map holds exactly the explicit binding list, a set index present in both maps
holds the reflected list with the explicit bindings appended after it, and a
set index untouched by the explicit map keeps its reflected list: the
per-index result is mergeSpec of the two lookups, so no reflected binding is
removed or replaced. -/
theorem merge_bindings_correct (reflected explicit : List (Nat × List LayoutBinding)) (k : Nat)
    (hnd : (explicit.map Prod.fst).Nodup) :
    findSet (mergeBindings reflected explicit) k
      = mergeSpec (findSet reflected k) (findSet explicit k) :=
  mergeBindings_lookup explicit reflected k hnd

/-- Witness for merge_bindings_correct: reflected set 0, explicit bindings
for set 0 (appended) and set 1 (inserted verbatim), checked at index 0. -/
theorem merge_bindings_correct_witness :
    (([(0, [⟨1, 7, 1, 1⟩]), (1, [⟨0, 6, 1, 1⟩])] :
        List (Nat × List LayoutBinding)).map Prod.fst).Nodup
    ∧ findSet (mergeBindings [(0, [⟨0, 7, 1, 1⟩])] [(0, [⟨1, 7, 1, 1⟩]), (1, [⟨0, 6, 1, 1⟩])]) 0
        = mergeSpec (findSet [(0, [⟨0, 7, 1, 1⟩])] 0)
            (findSet [(0, [⟨1, 7, 1, 1⟩]), (1, [⟨0, 6, 1, 1⟩])] 0) :=
  ⟨by decide, merge_bindings_correct _ _ 0 (by decide)⟩

theorem getD_set_self {α : Type} (arr : List α) (k : Nat) (v d : α) (h : k < arr.length) :
    (arr.set k v).getD k d = v := by
  induction arr generalizing k with
  | nil => simp at h
  | cons a rest ih =>
    cases k with
    | zero => rfl
    | succ k =>
      simp only [List.set_cons_succ, List.getD_cons_succ]
      exact ih k (by simpa using h)

theorem getD_set_ne {α : Type} (arr : List α) (k j : Nat) (v d : α) (h : j ≠ k) :
    (arr.set k v).getD j d = arr.getD j d := by
  induction arr generalizing k j with
  | nil => rfl
  | cons a rest ih =>
    cases k with
    | zero =>
      cases j with
      | zero => exact absurd rfl h
      | succ j => rfl
    | succ k =>
      cases j with
      | zero => rfl
      | succ j =>
        simp only [List.set_cons_succ, List.getD_cons_succ]
        exact ih k j fun hh => h (by omega)

theorem buildLayouts_fold_inv (l : List (Nat × List LayoutBinding)) :
    ∀ (arr : List (Option (List LayoutBinding))),
      (l.map Prod.fst).Nodup → (∀ q ∈ l, q.1 < arr.length) →
      ∃ arr', l.foldl buildLayoutsStep (some arr) = some arr'
        ∧ arr'.length = arr.length
        ∧ (∀ q ∈ l, arr'.getD q.1 none = some q.2)
        ∧ (∀ j, j ∉ l.map Prod.fst → arr'.getD j none = arr.getD j none) := by
  induction l with
  | nil =>
    intro arr _ _
    exact ⟨arr, rfl, rfl, by simp, fun j _ => rfl⟩
  | cons p tl ih =>
    intro arr hnd hlt
    obtain ⟨k, v⟩ := p
    simp only [List.map_cons, List.nodup_cons] at hnd
    obtain ⟨hnotin, hnd'⟩ := hnd
    have hk : k < arr.length := hlt (k, v) (List.mem_cons_self _ _)
    have hstep : buildLayoutsStep (some arr) (k, v) = some (arr.set k (some v)) := by
      simp [buildLayoutsStep, hk]
    simp only [List.foldl_cons, hstep]
    have hlt' : ∀ q ∈ tl, q.1 < (arr.set k (some v)).length := by
      intro q hq
      rw [List.length_set]
      exact hlt q (List.mem_cons_of_mem _ hq)
    obtain ⟨arr', he, hlen, hmem, hpres⟩ := ih (arr.set k (some v)) hnd' hlt'
    refine ⟨arr', he, by rw [hlen, List.length_set], ?_, ?_⟩
    · intro q hq
      rcases List.mem_cons.mp hq with hq | hq
    -- the head entry: later iterations do not touch index k
      · subst hq
        rw [hpres k hnotin]
        exact getD_set_self arr k (some v) none hk
      · exact hmem q hq
    · intro j hj
      simp only [List.map_cons, List.mem_cons] at hj
      push_neg at hj
      rw [hpres j hj.2]
      exact getD_set_ne arr k j (some v) none hj.1

/-- Claim C5 counterexample: the set-index map with indices 0 and 2 only. The
claim asks for a layout array of length 3 with every store in bounds, but the
code allocates a vector whose length is the number of map entries, here 2,
and the store at index 2 is out of bounds, a Rust panic. -/
theorem buildLayouts_sparse_out_of_bounds :
    buildLayouts [(0, []), (2, [])] = none := by
  decide

/-- Claim C5 amended: the layout array has length equal to the number of
distinct set indices, not max index plus one, and the stores are in bounds
exactly when every set index is below that count; under that bound, in
particular for contiguous indices 0 to n - 1 where the two lengths agree,
construction succeeds, the array keeps that length, and the layout of every
set is stored at its own set index. -/
theorem buildLayouts_dense_correct (sets : List (Nat × List LayoutBinding))
    (p : Nat × List LayoutBinding) (hp : p ∈ sets)
    (hnd : (sets.map Prod.fst).Nodup)
    (hlt : ∀ q ∈ sets, q.1 < sets.length) :
    (buildLayouts sets).isSome = true
    ∧ ((buildLayouts sets).getD []).length = sets.length
    ∧ ((buildLayouts sets).getD []).getD p.1 none = some p.2 := by
  have hlt' : ∀ q ∈ sets, q.1 < (List.replicate sets.length
      (none : Option (List LayoutBinding))).length := by
    simpa using hlt
  obtain ⟨arr', he, hlen, hmem, _⟩ := buildLayouts_fold_inv sets
    (List.replicate sets.length none) hnd hlt'
  have hb : buildLayouts sets = some arr' := he
  rw [hb]
  refine ⟨rfl, ?_, ?_⟩
  · simpa using hlen
  · exact hmem p hp

/-- Witness for buildLayouts_dense_correct: contiguous set indices 0 and 1,
checked at the entry for set 1. -/
theorem buildLayouts_dense_correct_witness :
    ((1, [⟨0, 6, 1, 1⟩]) ∈ ([(0, [⟨0, 7, 1, 1⟩]), (1, [⟨0, 6, 1, 1⟩])] :
        List (Nat × List LayoutBinding)))
    ∧ (buildLayouts [(0, [⟨0, 7, 1, 1⟩]), (1, [⟨0, 6, 1, 1⟩])]).isSome = true
    ∧ ((buildLayouts [(0, [⟨0, 7, 1, 1⟩]), (1, [⟨0, 6, 1, 1⟩])]).getD []).length
        = ([(0, [⟨0, 7, 1, 1⟩]), (1, [⟨0, 6, 1, 1⟩])] :
            List (Nat × List LayoutBinding)).length
    ∧ ((buildLayouts [(0, [⟨0, 7, 1, 1⟩]), (1, [⟨0, 6, 1, 1⟩])]).getD []).getD 1 none
        = some [⟨0, 6, 1, 1⟩] :=
  ⟨by decide,
    (buildLayouts_dense_correct _ (1, [⟨0, 6, 1, 1⟩]) (by decide) (by decide) (by decide)).1,
    (buildLayouts_dense_correct _ (1, [⟨0, 6, 1, 1⟩]) (by decide) (by decide) (by decide)).2.1,
    (buildLayouts_dense_correct _ (1, [⟨0, 6, 1, 1⟩]) (by decide) (by decide) (by decide)).2.2⟩

theorem poolSizes_inner (l : List LayoutBinding) :
    ∀ acc : List (Nat × Nat),
      l.foldl (fun a2 b => a2 ++ [(b.descriptorType, b.descriptorCount)]) acc
        = acc ++ l.map fun b => (b.descriptorType, b.descriptorCount) := by
  induction l with
  | nil => intro acc; simp
  | cons x tl ih =>
    intro acc
    simp only [List.foldl_cons, List.map_cons]
    rw [ih]
    simp

theorem poolSizes_eq_flatten (sets : List (Nat × List LayoutBinding)) :
    poolSizes sets = (sets.map fun p => p.2.map
      fun b => (b.descriptorType, b.descriptorCount)).flatten := by
  suffices h : ∀ acc, sets.foldl
        (fun acc p => p.2.foldl
          (fun a2 b => a2 ++ [(b.descriptorType, b.descriptorCount)]) acc) acc
      = acc ++ (sets.map fun p => p.2.map
          fun b => (b.descriptorType, b.descriptorCount)).flatten by
    simpa [poolSizes] using h []
  induction sets with
  | nil => intro acc; simp
  | cons p tl ih =>
    intro acc
    rw [List.foldl_cons, poolSizes_inner, ih, List.map_cons, List.flatten_cons,
      List.append_assoc]

theorem sumByType_cons (p : Nat × Nat) (ps : List (Nat × Nat)) (ty : Nat) :
    sumByType (p :: ps) ty
      = if p.1 == ty then p.2 + sumByType ps ty else sumByType ps ty := by
  simp only [sumByType, List.filter_cons]
  split
  · simp
  · rfl

theorem sumByType_append (a b : List (Nat × Nat)) (ty : Nat) :
    sumByType (a ++ b) ty = sumByType a ty + sumByType b ty := by
  simp [sumByType, List.filter_append]

theorem sumByType_pairs (l : List LayoutBinding) (ty : Nat) :
    sumByType (l.map fun b => (b.descriptorType, b.descriptorCount)) ty
      = ((l.filter fun b => b.descriptorType == ty).map LayoutBinding.descriptorCount).sum := by
  induction l with
  | nil => rfl
  | cons x tl ih =>
    simp only [List.map_cons, sumByType_cons, List.filter_cons]
    cases hx : (x.descriptorType == ty) <;> simp [hx, ih]

theorem sumByType_poolSizes (sets : List (Nat × List LayoutBinding)) (ty : Nat) :
    sumByType (poolSizes sets) ty = totalCountByType sets ty := by
  rw [poolSizes_eq_flatten]
  induction sets with
  | nil => rfl
  | cons p tl ih =>
    simp only [List.map_cons, List.flatten_cons, sumByType_append, totalCountByType,
      List.sum_cons]
    rw [sumByType_pairs]
    simp only [totalCountByType] at ih
    rw [ih]

/-- Claim C6: the pool-size entries pushed at construction, one per binding,
sum per descriptor type to the total descriptor count of all bindings of that
type across all sets, and the constructed pipeline records max_sets equal to
max_frames_in_flight times the number of distinct sets of the merged map. -/
theorem pool_sizes_totals_and_max_sets (c : CompileResult) (mfif : Nat)
    (e : List (Nat × List LayoutBinding)) (arr : List (Option (List LayoutBinding)))
    (ty : Nat) (hf : c.failed = false)
    (hb : buildLayouts (mergeBindings c.reflected e) = some arr) :
    sumByType (poolSizes (mergeBindings c.reflected e)) ty
        = totalCountByType (mergeBindings c.reflected e) ty
    ∧ (new_from_source_string c mfif (some e)).map BuildOutcome.pipeline
        = some (some ⟨arr, poolSizes (mergeBindings c.reflected e),
                      mfif * (mergeBindings c.reflected e).length⟩) := by
  refine ⟨sumByType_poolSizes _ ty, ?_⟩
  simp [new_from_source_string, hf, hb]

/-- Witness for pool_sizes_totals_and_max_sets: a reflected set 0 with one
storage-buffer binding of count 2 and an explicit set 1 with one binding of
count 3, two frames in flight, checked at descriptor type 7. -/
theorem pool_sizes_totals_and_max_sets_witness :
    ((⟨false, "", [(0, [⟨0, 7, 2, 1⟩])]⟩ : CompileResult).failed = false
      ∧ buildLayouts (mergeBindings
            (⟨false, "", [(0, [⟨0, 7, 2, 1⟩])]⟩ : CompileResult).reflected
            [(1, [⟨0, 6, 3, 1⟩])])
          = some [some [⟨0, 7, 2, 1⟩], some [⟨0, 6, 3, 1⟩]])
    ∧ (sumByType (poolSizes (mergeBindings
            (⟨false, "", [(0, [⟨0, 7, 2, 1⟩])]⟩ : CompileResult).reflected
            [(1, [⟨0, 6, 3, 1⟩])])) 7
        = totalCountByType (mergeBindings
            (⟨false, "", [(0, [⟨0, 7, 2, 1⟩])]⟩ : CompileResult).reflected
            [(1, [⟨0, 6, 3, 1⟩])]) 7
      ∧ (new_from_source_string ⟨false, "", [(0, [⟨0, 7, 2, 1⟩])]⟩ 2
            (some [(1, [⟨0, 6, 3, 1⟩])])).map BuildOutcome.pipeline
          = some (some ⟨[some [⟨0, 7, 2, 1⟩], some [⟨0, 6, 3, 1⟩]],
              poolSizes (mergeBindings
                (⟨false, "", [(0, [⟨0, 7, 2, 1⟩])]⟩ : CompileResult).reflected
                [(1, [⟨0, 6, 3, 1⟩])]),
              2 * (mergeBindings
                (⟨false, "", [(0, [⟨0, 7, 2, 1⟩])]⟩ : CompileResult).reflected
                [(1, [⟨0, 6, 3, 1⟩])]).length⟩)) :=
  ⟨⟨rfl, by decide⟩,
    pool_sizes_totals_and_max_sets ⟨false, "", [(0, [⟨0, 7, 2, 1⟩])]⟩ 2
      [(1, [⟨0, 6, 3, 1⟩])] [some [⟨0, 7, 2, 1⟩], some [⟨0, 6, 3, 1⟩]] 7 rfl (by decide)⟩

/-- Claim C7 counterexample: two compilations that fail with different
diagnostic texts produce identical returned values, so the diagnostic is not
part of the returned result; it is only printed to standard output. -/
theorem compile_failure_diagnostic_not_returned :
    (new_from_source_string ⟨true, "diag A", []⟩ 1 none).map BuildOutcome.pipeline
      = (new_from_source_string ⟨true, "diag B", []⟩ 1 none).map BuildOutcome.pipeline
    ∧ (new_from_source_string ⟨true, "diag A", []⟩ 1 none).map BuildOutcome.printed
        = some ["diag A"]
    ∧ "diag A" ≠ "diag B" :=
  ⟨rfl, rfl, by decide⟩

/-- Claim C7 amended: a failed compilation short-circuits construction, which
returns None having created no layout, pool, or pipeline object; the
diagnostic text is printed to standard output rather than being carried in
the returned result. -/
theorem compile_failure_short_circuits (c : CompileResult) (m : Nat)
    (e : Option (List (Nat × List LayoutBinding))) (hf : c.failed = true) :
    new_from_source_string c m e = some ⟨none, [c.error_string], 0, 0, 0⟩ := by
  simp [new_from_source_string, hf]

/-- Witness for compile_failure_short_circuits at a concrete failing
compilation. -/
theorem compile_failure_short_circuits_witness :
    (⟨true, "boom", []⟩ : CompileResult).failed = true
    ∧ new_from_source_string ⟨true, "boom", []⟩ 3 none
        = some ⟨none, ["boom"], 0, 0, 0⟩ :=
  ⟨rfl, compile_failure_short_circuits ⟨true, "boom", []⟩ 3 none rfl⟩

theorem setStatus_status_self (s : SubmissionState) (id : Nat) (st : CBStatus) :
    (setStatus s id st).status id = some st := by
  simp [setStatus]

theorem setStatus_status_ne (s : SubmissionState) (id j : Nat) (st : CBStatus)
    (h : j ≠ id) : (setStatus s id st).status j = s.status j := by
  simp [setStatus, h]

theorem setStatus_enqueues (s : SubmissionState) (id : Nat) (st : CBStatus) :
    (setStatus s id st).enqueues = s.enqueues := rfl

theorem setStatus_signaled (s : SubmissionState) (id : Nat) (st : CBStatus) :
    (setStatus s id st).signaled = s.signaled := rfl

theorem bumpEnqueue_status (s : SubmissionState) (id : Nat) :
    (bumpEnqueue s id).status = s.status := rfl

theorem bumpEnqueue_signaled (s : SubmissionState) (id : Nat) :
    (bumpEnqueue s id).signaled = s.signaled := rfl

theorem bumpEnqueue_enqueues_self (s : SubmissionState) (id : Nat) :
    (bumpEnqueue s id).enqueues id = s.enqueues id + 1 := by
  simp [bumpEnqueue]

theorem bumpEnqueue_enqueues_ne (s : SubmissionState) (id j : Nat) (h : j ≠ id) :
    (bumpEnqueue s id).enqueues j = s.enqueues j := by
  simp [bumpEnqueue, h]

theorem setSignaled_status (s : SubmissionState) (id : Nat) :
    (setSignaled s id).status = s.status := rfl

theorem setSignaled_enqueues (s : SubmissionState) (id : Nat) :
    (setSignaled s id).enqueues = s.enqueues := rfl

theorem setSignaled_signaled_self (s : SubmissionState) (id : Nat) :
    (setSignaled s id).signaled id = true := by
  simp [setSignaled]

theorem setSignaled_signaled_ne (s : SubmissionState) (id j : Nat) (h : j ≠ id) :
    (setSignaled s id).signaled j = s.signaled j := by
  simp [setSignaled, h]

theorem enqueue_invariant {s : SubmissionState} (h : Reachable s) :
    ∀ id, (s.enqueues id = 0
        ∧ (s.status id = none ∨ s.status id = some CBStatus.idle
            ∨ s.status id = some CBStatus.recording))
      ∨ (s.enqueues id = 1
        ∧ (s.status id = some CBStatus.submitted
            ∨ s.status id = some CBStatus.waitingDrop
            ∨ s.status id = some CBStatus.freed)) := by
  induction h with
  | init => intro id; exact Or.inl ⟨rfl, Or.inl rfl⟩
  | step _ hstep ih =>
    cases hstep with
    | alloc id0 h0 =>
      intro id
      by_cases hid : id = id0
      · subst hid
        rcases ih id with ⟨he, _⟩ | ⟨_, hst⟩
        · exact Or.inl ⟨by rw [setStatus_enqueues]; exact he,
            Or.inr (Or.inl (setStatus_status_self _ _ _))⟩
        · rw [h0] at hst
          simp at hst
      · rw [setStatus_enqueues, setStatus_status_ne _ _ _ _ hid]
        exact ih id
    | beginRecord id0 h0 =>
      intro id
      by_cases hid : id = id0
      · subst hid
        rcases ih id with ⟨he, _⟩ | ⟨_, hst⟩
        · exact Or.inl ⟨by rw [setStatus_enqueues]; exact he,
            Or.inr (Or.inr (setStatus_status_self _ _ _))⟩
        · rw [h0] at hst
          simp at hst
      · rw [setStatus_enqueues, setStatus_status_ne _ _ _ _ hid]
        exact ih id
    | record id0 h0 => exact ih
    | submit id0 h0 =>
      intro id
      by_cases hid : id = id0
      · subst hid
        rcases ih id with ⟨he, _⟩ | ⟨_, hst⟩
        · refine Or.inr ⟨?_, Or.inl ?_⟩
          · rw [bumpEnqueue_enqueues_self, setStatus_enqueues, he]
          · rw [bumpEnqueue_status, setStatus_status_self]
        · rw [h0] at hst
          simp at hst
      · rw [bumpEnqueue_status, bumpEnqueue_enqueues_ne _ _ _ hid,
          setStatus_enqueues, setStatus_status_ne _ _ _ _ hid]
        exact ih id
    | signal id0 h0 =>
      intro id
      rw [setSignaled_status, setSignaled_enqueues]
      exact ih id
    | dropWait id0 h0 hsig =>
      intro id
      by_cases hid : id = id0
      · subst hid
        rcases ih id with ⟨_, hst⟩ | ⟨he, _⟩
        · rcases hst with hc | hc | hc <;> rw [h0] at hc <;> simp at hc
        · exact Or.inr ⟨by rw [setStatus_enqueues]; exact he,
            Or.inr (Or.inl (setStatus_status_self _ _ _))⟩
      · rw [setStatus_enqueues, setStatus_status_ne _ _ _ _ hid]
        exact ih id
    | dropFree id0 h0 =>
      intro id
      by_cases hid : id = id0
      · subst hid
        rcases ih id with ⟨_, hst⟩ | ⟨he, _⟩
        · rcases hst with hc | hc | hc <;> rw [h0] at hc <;> simp at hc
        · exact Or.inr ⟨by rw [setStatus_enqueues]; exact he,
            Or.inr (Or.inr (setStatus_status_self _ _ _))⟩
      · rw [setStatus_enqueues, setStatus_status_ne _ _ _ _ hid]
        exact ih id

/-- Claim C8: along every reachable trace of the submission protocol at most
one queue-submit call is issued per command sequence. submit consumes the
CommandBuffer into the WaitHandle, so no transition can record into or
resubmit a submitted sequence, and the enqueue counter never passes one. -/
theorem submitted_sequence_single_enqueue (s : SubmissionState) (h : Reachable s) (id : Nat) :
    s.enqueues id ≤ 1 := by
  rcases enqueue_invariant h id with ⟨he, _⟩ | ⟨he, _⟩ <;> omega

/-- Witness for submitted_sequence_single_enqueue: the state reached by
allocating buffer 0, recording, and submitting once. -/
theorem submitted_sequence_single_enqueue_witness :
    (bumpEnqueue (setStatus (setStatus (setStatus initialState 0 CBStatus.idle) 0
      CBStatus.recording) 0 CBStatus.submitted) 0).enqueues 0 ≤ 1 :=
  submitted_sequence_single_enqueue _
    (Reachable.step
      (Reachable.step
        (Reachable.step Reachable.init (Step.alloc initialState 0 rfl))
        (Step.beginRecord _ 0 rfl))
      (Step.submit _ 0 rfl)) 0

theorem signaled_invariant {s : SubmissionState} (h : Reachable s) :
    ∀ id, (s.status id = some CBStatus.waitingDrop ∨ s.status id = some CBStatus.freed) →
      s.signaled id = true := by
  induction h with
  | init =>
    intro id hst
    rcases hst with h | h <;> exact Option.noConfusion h
  | step _ hstep ih =>
    cases hstep with
    | alloc id0 h0 =>
      intro id hst
      rw [setStatus_signaled]
      by_cases hid : id = id0
      · subst hid
        rw [setStatus_status_self] at hst
        rcases hst with hc | hc <;> simp at hc
      · rw [setStatus_status_ne _ _ _ _ hid] at hst
        exact ih id hst
    | beginRecord id0 h0 =>
      intro id hst
      rw [setStatus_signaled]
      by_cases hid : id = id0
      · subst hid
        rw [setStatus_status_self] at hst
        rcases hst with hc | hc <;> simp at hc
      · rw [setStatus_status_ne _ _ _ _ hid] at hst
        exact ih id hst
    | record id0 h0 => exact ih
    | submit id0 h0 =>
      intro id hst
      rw [bumpEnqueue_signaled, setStatus_signaled]
      rw [bumpEnqueue_status] at hst
      by_cases hid : id = id0
      · subst hid
        rw [setStatus_status_self] at hst
        rcases hst with hc | hc <;> simp at hc
      · rw [setStatus_status_ne _ _ _ _ hid] at hst
        exact ih id hst
    | signal id0 h0 =>
      intro id hst
      rw [setSignaled_status] at hst
      by_cases hid : id = id0
      · subst hid
        exact setSignaled_signaled_self _ _
      · rw [setSignaled_signaled_ne _ _ _ hid]
        exact ih id hst
    | dropWait id0 h0 hsig =>
      intro id hst
      rw [setStatus_signaled]
      by_cases hid : id = id0
      · subst hid
        exact hsig
      · rw [setStatus_status_ne _ _ _ _ hid] at hst
        exact ih id hst
    | dropFree id0 h0 =>
      intro id hst
      rw [setStatus_signaled]
      by_cases hid : id = id0
      · subst hid
        exact ih id (Or.inl h0)
      · rw [setStatus_status_ne _ _ _ _ hid] at hst
        exact ih id hst

/-- Claim C9: in every reachable state a command sequence whose storage has
been released back to the pool has a signaled fence: the Drop implementation
of WaitHandle blocks in wait, which returns only once the fence is signaled,
before it calls free_command_buffers, so the release never precedes fence
signaling. -/
theorem drop_waits_before_release (s : SubmissionState) (h : Reachable s) (id : Nat)
    (hf : s.status id = some CBStatus.freed) : s.signaled id = true :=
  signaled_invariant h id (Or.inr hf)

/-- Witness for drop_waits_before_release: the state reached by allocating
buffer 0, recording, submitting, device signaling, and dropping the handle. -/
theorem drop_waits_before_release_witness :
    (setStatus (setStatus (setSignaled (bumpEnqueue (setStatus (setStatus (setStatus
      initialState 0 CBStatus.idle) 0 CBStatus.recording) 0 CBStatus.submitted) 0) 0) 0
      CBStatus.waitingDrop) 0 CBStatus.freed).signaled 0 = true :=
  drop_waits_before_release _
    (Reachable.step
      (Reachable.step
        (Reachable.step
          (Reachable.step
            (Reachable.step
              (Reachable.step Reachable.init (Step.alloc initialState 0 rfl))
              (Step.beginRecord _ 0 rfl))
            (Step.submit _ 0 rfl))
          (Step.signal _ 0 rfl))
        (Step.dropWait _ 0 rfl rfl))
      (Step.dropFree _ 0 rfl)) 0 rfl

end VkUtils
